import Mathlib

/-!
Verification of the mail-to-sqlite synchronization and thread-reconstruction
engine against its specification.  The Python source is embedded shallowly:
SQLite tables become lists of row structures, datetimes become naturals,
JSON blobs become opaque strings, and fallible database operations return
`Except`.
-/

set_option autoImplicit false

namespace MailToSqlite

/-- Database-level failures surfaced by the store: `integrityError` models
peewee/SQLite `IntegrityError` (foreign-key or uniqueness violation),
`keyError` models a Python `KeyError` escaping `create_message` when a
clobbered attribute has no entry in the prepared `message_data` dict. -/
inductive DbErr where
  | integrityError
  | keyError
  deriving DecidableEq

/-- Characters stripped by Python `.strip('<>')`. -/
def isAngle (c : Char) : Bool := c = '<' || c = '>'

/-- Python `s.strip(chars)`: remove the given characters from both ends.
Here specialised to the angle-bracket set used on threading headers. -/
def stripAngles (s : String) : String :=
  String.mk (((s.data.dropWhile isAngle).reverse.dropWhile isAngle).reverse)

/-- Whitespace characters removed by Python `.strip()` with no argument. -/
def isWs (c : Char) : Bool := c.isWhitespace

/-- Python `s.strip()`: remove whitespace from both ends. -/
def stripWs (s : String) : String :=
  String.mk (((s.data.dropWhile isWs).reverse.dropWhile isWs).reverse)

/-- Normalization applied to a raw `In-Reply-To` value before the threading
lookup: trim surrounding whitespace (Python `.strip()`), then strip the
enclosing angle brackets (Python `.strip('<>')`). -/
def normalizeRef (s : String) : String :=
  stripAngles (stripWs s)

/-- Python truthiness of an optional string attribute: `None` and the empty
string are falsy. -/
def strTruthy : Option String → Bool
  | none => false
  | some s => s ≠ ""

/-- Modelled from the spec: the persisted Message row as the Thread
Reconstructor sees it.  `rebuild_threads` is invoked from `main.py` but its
definition (and the `rfc822_message_id` / raw `in_reply_to` columns it
reads) is not part of the sources, so the row carries the fields §3 of the
spec lists: the threading join key `rfc822_message_id`, the raw
`in_reply_to` header, the foreign key `in_reply_to_id`, and `rest`
standing for all remaining payload columns. -/
structure ThreadMsg where
  message_id : String
  rfc822_message_id : String
  in_reply_to : Option String
  in_reply_to_id : Option String
  rest : String
  deriving DecidableEq

/-- Modelled from the spec: the per-row step of `db.rebuild_threads`.
Per §4.4: for a Message with a non-empty `in_reply_to`, normalize the
value and look up a Message whose `rfc822_message_id` equals the
normalized value; if found, set `in_reply_to_id` to that Message's
`message_id` (overwriting any prior value); if not found, leave
`in_reply_to_id` null.  Rows whose `in_reply_to` is absent or empty are
not examined. -/
def relinkRow (store : List ThreadMsg) (m : ThreadMsg) : ThreadMsg :=
  if strTruthy m.in_reply_to then
    match store.find? (fun p =>
        p.rfc822_message_id = normalizeRef (m.in_reply_to.getD "")) with
    | some parent => { m with in_reply_to_id := some parent.message_id }
    | none => { m with in_reply_to_id := none }
  else m

/-- Modelled from the spec: `db.rebuild_threads`, absent from the sources
though called by `main.py`; §4.4 describes it as a whole-store pass
applying the relink step above to every Message row. -/
def rebuild_threads (store : List ThreadMsg) : List ThreadMsg :=
  store.map (relinkRow store)

theorem relinkRow_message_id (s : List ThreadMsg) (m : ThreadMsg) :
    (relinkRow s m).message_id = m.message_id := by
  unfold relinkRow
  split
  · split <;> rfl
  · rfl

theorem relinkRow_rfc (s : List ThreadMsg) (m : ThreadMsg) :
    (relinkRow s m).rfc822_message_id = m.rfc822_message_id := by
  unfold relinkRow
  split
  · split <;> rfl
  · rfl

theorem relinkRow_irt (s : List ThreadMsg) (m : ThreadMsg) :
    (relinkRow s m).in_reply_to = m.in_reply_to := by
  unfold relinkRow
  split
  · split <;> rfl
  · rfl

theorem relinkRow_rest (s : List ThreadMsg) (m : ThreadMsg) :
    (relinkRow s m).rest = m.rest := by
  unfold relinkRow
  split
  · split <;> rfl
  · rfl

theorem rebuild_threads_find? (store : List ThreadMsg) (v : String) :
    (rebuild_threads store).find? (fun p => p.rfc822_message_id = v)
      = (store.find? (fun p => p.rfc822_message_id = v)).map (relinkRow store) := by
  unfold rebuild_threads
  rw [List.find?_map]
  have hfun : ((fun p => decide (p.rfc822_message_id = v)) ∘ relinkRow store)
      = (fun p : ThreadMsg => decide (p.rfc822_message_id = v)) := by
    funext x
    simp [Function.comp, relinkRow_rfc]
  rw [hfun]

theorem relinkRow_stable (store : List ThreadMsg) (m : ThreadMsg) :
    relinkRow (rebuild_threads store) (relinkRow store m) = relinkRow store m := by
  by_cases htr : strTruthy m.in_reply_to
  · cases hf : store.find? (fun p =>
        p.rfc822_message_id = normalizeRef (m.in_reply_to.getD "")) with
    | some parent =>
        have hm1 : relinkRow store m
            = { m with in_reply_to_id := some parent.message_id } := by
          unfold relinkRow
          rw [if_pos htr, hf]
        rw [hm1]
        unfold relinkRow
        rw [if_pos htr]
        have hfind := rebuild_threads_find? store (normalizeRef (m.in_reply_to.getD ""))
        rw [hf] at hfind
        rw [hfind]
        simp [relinkRow_message_id]
    | none =>
        have hm1 : relinkRow store m = { m with in_reply_to_id := none } := by
          unfold relinkRow
          rw [if_pos htr, hf]
        rw [hm1]
        unfold relinkRow
        rw [if_pos htr]
        have hfind := rebuild_threads_find? store (normalizeRef (m.in_reply_to.getD ""))
        rw [hf] at hfind
        rw [hfind]
        simp
  · have hm1 : relinkRow store m = m := by
      unfold relinkRow
      rw [if_neg htr]
    rw [hm1]
    unfold relinkRow
    rw [if_neg htr]

/-- C2: thread reconstruction is idempotent — running `rebuild_threads`
twice in succession with no new messages added in between leaves every
row identical to the state after the first run. -/
theorem rebuild_threads_idempotent (store : List ThreadMsg) :
    rebuild_threads (rebuild_threads store) = rebuild_threads store := by
  have h2 : rebuild_threads (rebuild_threads store)
      = (store.map (relinkRow store)).map (relinkRow (rebuild_threads store)) := rfl
  rw [h2, List.map_map]
  have h3 : ∀ x ∈ store,
      (relinkRow (rebuild_threads store) ∘ relinkRow store) x = relinkRow store x := by
    intro x _
    simp [Function.comp, relinkRow_stable]
  exact List.map_congr_left h3

/-- C1: `rebuild_threads` examines every Message row.  A row whose
`in_reply_to` is empty or absent is left untouched.  A row with a
non-empty `in_reply_to` keeps all fields except `in_reply_to_id`; if some
row's `rfc822_message_id` equals the normalized (trimmed, angle-stripped)
value, `in_reply_to_id` is set to such a row's `message_id` (overwriting
any prior value), and if no row matches it ends up null, with no error. -/
theorem rebuild_threads_row_spec (store : List ThreadMsg) (i : Nat)
    (hi : i < store.length) :
    ∃ hi2 : i < (rebuild_threads store).length,
      (strTruthy store[i].in_reply_to = false →
        (rebuild_threads store)[i] = store[i]) ∧
      (strTruthy store[i].in_reply_to = true →
        ((rebuild_threads store)[i].message_id = store[i].message_id ∧
         (rebuild_threads store)[i].rfc822_message_id = store[i].rfc822_message_id ∧
         (rebuild_threads store)[i].in_reply_to = store[i].in_reply_to ∧
         (rebuild_threads store)[i].rest = store[i].rest) ∧
        ((∃ p ∈ store, p.rfc822_message_id
            = normalizeRef (store[i].in_reply_to.getD "")) →
          ∃ q ∈ store,
            q.rfc822_message_id = normalizeRef (store[i].in_reply_to.getD "") ∧
            (rebuild_threads store)[i].in_reply_to_id = some q.message_id) ∧
        ((∀ p ∈ store, p.rfc822_message_id
            ≠ normalizeRef (store[i].in_reply_to.getD "")) →
          (rebuild_threads store)[i].in_reply_to_id = none)) := by
  have hlen : (rebuild_threads store).length = store.length := by
    simp [rebuild_threads]
  have hi2 : i < (rebuild_threads store).length := by omega
  have hrow : (rebuild_threads store)[i] = relinkRow store store[i] := by
    simp [rebuild_threads]
  refine ⟨hi2, ?_, ?_⟩
  · intro h
    rw [hrow]
    unfold relinkRow
    rw [if_neg (by simp [h])]
  · intro htr
    refine ⟨⟨?_, ?_, ?_, ?_⟩, ?_, ?_⟩
    · rw [hrow, relinkRow_message_id]
    · rw [hrow, relinkRow_rfc]
    · rw [hrow, relinkRow_irt]
    · rw [hrow, relinkRow_rest]
    · rintro ⟨p, hp, hpeq⟩
      cases hf : store.find? (fun q =>
          q.rfc822_message_id = normalizeRef (store[i].in_reply_to.getD "")) with
      | none =>
          exact absurd (by simpa using hpeq)
            (by simpa using List.find?_eq_none.mp hf p hp)
      | some q =>
          refine ⟨q, List.mem_of_find?_eq_some hf, ?_, ?_⟩
          · simpa using List.find?_some hf
          · rw [hrow]
            unfold relinkRow
            rw [if_pos htr, hf]
    · intro hall
      have hf : store.find? (fun q =>
          q.rfc822_message_id = normalizeRef (store[i].in_reply_to.getD "")) = none := by
        refine List.find?_eq_none.mpr ?_
        intro p hp
        simpa using hall p hp
      rw [hrow]
      unfold relinkRow
      rw [if_pos htr, hf]

/-- Concrete parent row used to witness the thread-linking theorem. -/
def c1Parent : ThreadMsg :=
  ⟨"test-message-123", "parent.message.id", none, none, "p"⟩

/-- Concrete child row whose `in_reply_to` carries whitespace and angle
brackets around the parent's `rfc822_message_id`. -/
def c1Child : ThreadMsg :=
  ⟨"message-2", "rfc822-message-2", some " <parent.message.id> ", none, "c"⟩

/-- Concrete two-row store for the thread-linking witness. -/
def c1Store : List ThreadMsg := [c1Parent, c1Child]

/-- Witness for C1: on a concrete store, the child whose `in_reply_to` is
`" <parent.message.id> "` gets linked to the row whose
`rfc822_message_id` is `"parent.message.id"`. -/
theorem rebuild_threads_row_spec_witness :
    ∃ hi2 : 1 < (rebuild_threads c1Store).length,
      (rebuild_threads c1Store)[1].in_reply_to_id = some "test-message-123" := by
  obtain ⟨hi2, _, h2⟩ := rebuild_threads_row_spec c1Store 1 (by decide)
  refine ⟨hi2, ?_⟩
  obtain ⟨_, hfound, _⟩ := h2 (by decide)
  obtain ⟨q, hq, hrfc, hid⟩ := hfound ⟨c1Parent, by decide, by decide⟩
  have hcases : q = c1Parent ∨ q = c1Child := by simpa [c1Store] using hq
  rcases hcases with rfl | rfl
  · simpa [c1Parent] using hid
  · exact absurd hrfc (by decide)

/-- A row of the `messages` table as created by `db.create_tables`: payload
columns plus the `in_reply_to_id` foreign key.  JSON columns (`sender`,
`recipients`, `labels`) are opaque strings, datetimes are naturals. -/
structure MsgRow where
  message_id : String
  thread_id : Option String
  sender : String
  recipients : String
  labels : String
  subject : Option String
  body : Option String
  size : Nat
  timestamp : Nat
  is_read : Bool
  is_outgoing : Bool
  last_indexed : Nat
  in_reply_to_id : Option String
  deriving DecidableEq

/-- The `ParsedMessage` record handed to `db.create_message` (class
`ParsedMessage` in `message.py`, duck-typed in `db.py`). -/
structure ParsedMessage where
  id : String
  thread_id : Option String
  sender : String
  recipients : String
  labels : String
  subject : Option String
  body : Option String
  size : Nat
  timestamp : Nat
  is_read : Bool
  is_outgoing : Bool
  in_reply_to : Option String
  references : List String
  deriving DecidableEq

/-- The `message_data` dict built at the top of `create_message`; the key
`in_reply_to` (which is the peewee field stored in column
`in_reply_to_id`) is added only when `msg.in_reply_to` is truthy. -/
def mkMessageData (msg : ParsedMessage) (now : Nat) : MsgRow :=
  { message_id := msg.id
    thread_id := msg.thread_id
    sender := msg.sender
    recipients := msg.recipients
    labels := msg.labels
    subject := msg.subject
    body := msg.body
    size := msg.size
    timestamp := msg.timestamp
    is_read := msg.is_read
    is_outgoing := msg.is_outgoing
    last_indexed := now
    in_reply_to_id := if strTruthy msg.in_reply_to then msg.in_reply_to else none }

/-- One step of the `for field_name in clobber` loop of `create_message`:
a name that is a `Message` field takes its value from `message_data`;
`id`, and `in_reply_to` when the message has no truthy `in_reply_to`, are
attributes of `Message` with no entry in `message_data`, so looking them
up raises `KeyError`; a name that is not an attribute is skipped.  (ORM
method attributes, which would also raise `KeyError`, are outside the
field-name domain modelled here.) -/
def clobberField (new : MsgRow) (hasIRT : Bool) (old : MsgRow) (name : String) :
    Except DbErr MsgRow :=
  match name with
  | "message_id" => .ok { old with message_id := new.message_id }
  | "thread_id" => .ok { old with thread_id := new.thread_id }
  | "sender" => .ok { old with sender := new.sender }
  | "recipients" => .ok { old with recipients := new.recipients }
  | "labels" => .ok { old with labels := new.labels }
  | "subject" => .ok { old with subject := new.subject }
  | "body" => .ok { old with body := new.body }
  | "size" => .ok { old with size := new.size }
  | "timestamp" => .ok { old with timestamp := new.timestamp }
  | "is_read" => .ok { old with is_read := new.is_read }
  | "is_outgoing" => .ok { old with is_outgoing := new.is_outgoing }
  | "last_indexed" => .ok { old with last_indexed := new.last_indexed }
  | "in_reply_to" =>
      if hasIRT then .ok { old with in_reply_to_id := new.in_reply_to_id }
      else .error .keyError
  | "id" => .error .keyError
  | _ => .ok old

/-- The `ON CONFLICT ... DO UPDATE` payload of `create_message`:
`last_indexed` is always refreshed, then every clobbered field is taken
from `message_data`. -/
def applyClobber (clobber : List String) (new : MsgRow) (hasIRT : Bool)
    (old : MsgRow) : Except DbErr MsgRow :=
  clobber.foldlM (fun acc name => clobberField new hasIRT acc name)
    { old with last_indexed := new.last_indexed }

/-- The database state touched by `create_message`: the `messages` table
and the `message_references` table (pairs `(message_id, refers_to_id)`,
insertion order preserved). -/
structure Store where
  messages : List MsgRow
  refs : List (String × String)
  deriving DecidableEq

/-- The reference-insertion loop of `create_message`: one
`INSERT ... ON CONFLICT IGNORE` per entry of `msg.references`, so a pair
already present (in the table or earlier in the loop) is left unchanged. -/
def insertRefs (mid : String) (ids : List String)
    (refs : List (String × String)) : List (String × String) :=
  ids.foldl (fun acc r => if (mid, r) ∈ acc then acc else acc ++ [(mid, r)]) refs

/-- The `INSERT ... ON CONFLICT DO UPDATE` statement of `create_message`
as it acts on the `messages` table.  On a fresh `message_id` the whole
`message_data` row is inserted (SQLite rejects a dangling
`in_reply_to_id` since `db.init` sets `pragma foreign_keys=1`, the new
row itself counting as a possible parent); on a conflict only
`last_indexed` plus the clobbered fields are written, and the foreign
key is checked only when the `in_reply_to_id` column is among the
updated columns. -/
def upsertRows (msg : ParsedMessage) (clobber : List String) (now : Nat)
    (st : Store) : Except DbErr (List MsgRow) :=
  let newRow := mkMessageData msg now
  let existingIds := st.messages.map (fun r => r.message_id)
  match st.messages.find? (fun r => r.message_id = msg.id) with
  | some old =>
      match applyClobber clobber newRow (strTruthy msg.in_reply_to) old with
      | .error e => .error e
      | .ok upd =>
          let updated := st.messages.map
            (fun r => if r.message_id = msg.id then upd else r)
          if "in_reply_to" ∈ clobber then
            match upd.in_reply_to_id with
            | some v =>
                if v ∈ msg.id :: existingIds then .ok updated
                else .error .integrityError
            | none => .ok updated
          else .ok updated
  | none =>
      match newRow.in_reply_to_id with
      | some v =>
          if v ∈ msg.id :: existingIds then .ok (st.messages ++ [newRow])
          else .error .integrityError
      | none => .ok (st.messages ++ [newRow])

/-- `db.create_message`: upsert of one message, then (when
`msg.references` is non-empty) the reference-insertion loop.  A failure
of the message upsert aborts the call before any reference row is
written. -/
def create_message (msg : ParsedMessage) (clobber : List String) (now : Nat)
    (st : Store) : Except DbErr Store :=
  match upsertRows msg clobber now st with
  | .error e => .error e
  | .ok msgs =>
      .ok { messages := msgs
            refs := if msg.references.isEmpty then st.refs
              else insertRefs msg.id msg.references st.refs }

/-- The mutable message fields a caller may clobber, as documented by the
CLI help in `main.py`. -/
def mutableFields : List String :=
  ["thread_id", "sender", "recipients", "subject", "body", "size",
   "timestamp", "is_outgoing", "is_read", "labels"]

theorem applyClobber_mutable (clobber : List String) (new : MsgRow)
    (hasIRT : Bool) :
    ∀ old : MsgRow, (∀ c ∈ clobber, c ∈ mutableFields) →
      applyClobber clobber new hasIRT old = .ok
        { message_id := old.message_id
          thread_id := if "thread_id" ∈ clobber then new.thread_id else old.thread_id
          sender := if "sender" ∈ clobber then new.sender else old.sender
          recipients := if "recipients" ∈ clobber then new.recipients else old.recipients
          labels := if "labels" ∈ clobber then new.labels else old.labels
          subject := if "subject" ∈ clobber then new.subject else old.subject
          body := if "body" ∈ clobber then new.body else old.body
          size := if "size" ∈ clobber then new.size else old.size
          timestamp := if "timestamp" ∈ clobber then new.timestamp else old.timestamp
          is_read := if "is_read" ∈ clobber then new.is_read else old.is_read
          is_outgoing := if "is_outgoing" ∈ clobber then new.is_outgoing else old.is_outgoing
          last_indexed := new.last_indexed
          in_reply_to_id := old.in_reply_to_id } := by
  induction clobber with
  | nil =>
      intro old h
      simp only [applyClobber, List.foldlM_nil, List.not_mem_nil, if_false]
      rfl
  | cons c rest ih =>
      intro old h
      have hc : c ∈ mutableFields := h c (List.mem_cons_self c rest)
      have hrest : ∀ x ∈ rest, x ∈ mutableFields :=
        fun x hx => h x (List.mem_cons_of_mem c hx)
      simp only [mutableFields, List.mem_cons, List.not_mem_nil, or_false] at hc
      rcases hc with rfl | rfl | rfl | rfl | rfl | rfl | rfl | rfl | rfl | rfl
      · rw [show applyClobber ("thread_id" :: rest) new hasIRT old
            = applyClobber rest new hasIRT { old with thread_id := new.thread_id }
            from rfl, ih _ hrest]
        simp [List.mem_cons]
      · rw [show applyClobber ("sender" :: rest) new hasIRT old
            = applyClobber rest new hasIRT { old with sender := new.sender }
            from rfl, ih _ hrest]
        simp [List.mem_cons]
      · rw [show applyClobber ("recipients" :: rest) new hasIRT old
            = applyClobber rest new hasIRT { old with recipients := new.recipients }
            from rfl, ih _ hrest]
        simp [List.mem_cons]
      · rw [show applyClobber ("subject" :: rest) new hasIRT old
            = applyClobber rest new hasIRT { old with subject := new.subject }
            from rfl, ih _ hrest]
        simp [List.mem_cons]
      · rw [show applyClobber ("body" :: rest) new hasIRT old
            = applyClobber rest new hasIRT { old with body := new.body }
            from rfl, ih _ hrest]
        simp [List.mem_cons]
      · rw [show applyClobber ("size" :: rest) new hasIRT old
            = applyClobber rest new hasIRT { old with size := new.size }
            from rfl, ih _ hrest]
        simp [List.mem_cons]
      · rw [show applyClobber ("timestamp" :: rest) new hasIRT old
            = applyClobber rest new hasIRT { old with timestamp := new.timestamp }
            from rfl, ih _ hrest]
        simp [List.mem_cons]
      · rw [show applyClobber ("is_outgoing" :: rest) new hasIRT old
            = applyClobber rest new hasIRT { old with is_outgoing := new.is_outgoing }
            from rfl, ih _ hrest]
        simp [List.mem_cons]
      · rw [show applyClobber ("is_read" :: rest) new hasIRT old
            = applyClobber rest new hasIRT { old with is_read := new.is_read }
            from rfl, ih _ hrest]
        simp [List.mem_cons]
      · rw [show applyClobber ("labels" :: rest) new hasIRT old
            = applyClobber rest new hasIRT { old with labels := new.labels }
            from rfl, ih _ hrest]
        simp [List.mem_cons]

theorem upsertRows_conflict (msg : ParsedMessage) (clobber : List String)
    (now : Nat) (st : Store) (old0 upd : MsgRow)
    (hfind : st.messages.find? (fun r => r.message_id = msg.id) = some old0)
    (happ : applyClobber clobber (mkMessageData msg now)
      (strTruthy msg.in_reply_to) old0 = .ok upd)
    (hirt : "in_reply_to" ∉ clobber) :
    upsertRows msg clobber now st = .ok
      (st.messages.map (fun r => if r.message_id = msg.id then upd else r)) := by
  unfold upsertRows
  rw [hfind]
  simp only [happ]
  rw [if_neg hirt]

theorem create_message_conflict (msg : ParsedMessage) (clobber : List String)
    (now : Nat) (st : Store) (old0 upd : MsgRow)
    (hfind : st.messages.find? (fun r => r.message_id = msg.id) = some old0)
    (happ : applyClobber clobber (mkMessageData msg now)
      (strTruthy msg.in_reply_to) old0 = .ok upd)
    (hirt : "in_reply_to" ∉ clobber) :
    create_message msg clobber now st = .ok
      { messages := st.messages.map
          (fun r => if r.message_id = msg.id then upd else r)
        refs := if msg.references.isEmpty then st.refs
          else insertRefs msg.id msg.references st.refs } := by
  unfold create_message
  rw [upsertRows_conflict msg clobber now st old0 upd hfind happ hirt]

theorem eq_of_mem_of_unique_ids (l : List MsgRow)
    (h : l.Pairwise (fun a b => a.message_id ≠ b.message_id)) :
    ∀ a b : MsgRow, a ∈ l → b ∈ l → a.message_id = b.message_id → a = b := by
  induction l with
  | nil =>
      intro a b ha _ _
      cases ha
  | cons x xs ih =>
      intro a b ha hb hab
      have hx := List.pairwise_cons.mp h
      rcases List.mem_cons.mp ha with rfl | ha2
      · rcases List.mem_cons.mp hb with rfl | hb2
        · rfl
        · exact absurd hab (hx.1 b hb2)
      · rcases List.mem_cons.mp hb with rfl | hb2
        · exact absurd hab.symm (hx.1 a ha2)
        · exact ih hx.2 a b ha2 hb2 hab

/-- C4: upserting over an existing row with a clobber list drawn from the
documented mutable fields overwrites exactly the clobbered fields with
the new message's values, keeps every mutable field not clobbered at its
stored value, keeps `message_id` and `in_reply_to_id`, unconditionally
refreshes `last_indexed` to the current time, and touches no other row;
with an empty clobber list only `last_indexed` changes. -/
theorem create_message_clobber_frame (st : Store) (msg : ParsedMessage)
    (clobber : List String) (now : Nat)
    (hclob : ∀ c ∈ clobber, c ∈ mutableFields)
    (huniq : st.messages.Pairwise (fun a b => a.message_id ≠ b.message_id))
    (hex : st.messages.any (fun r => r.message_id = msg.id) = true) :
    ∃ st2 : Store, create_message msg clobber now st = .ok st2 ∧
      st2.messages.length = st.messages.length ∧
      ∀ i (hi : i < st.messages.length) (hi2 : i < st2.messages.length),
        (st.messages[i].message_id ≠ msg.id → st2.messages[i] = st.messages[i]) ∧
        (st.messages[i].message_id = msg.id →
          st2.messages[i].message_id = st.messages[i].message_id ∧
          st2.messages[i].in_reply_to_id = st.messages[i].in_reply_to_id ∧
          st2.messages[i].last_indexed = now ∧
          st2.messages[i].thread_id
            = (if "thread_id" ∈ clobber then msg.thread_id else st.messages[i].thread_id) ∧
          st2.messages[i].sender
            = (if "sender" ∈ clobber then msg.sender else st.messages[i].sender) ∧
          st2.messages[i].recipients
            = (if "recipients" ∈ clobber then msg.recipients else st.messages[i].recipients) ∧
          st2.messages[i].labels
            = (if "labels" ∈ clobber then msg.labels else st.messages[i].labels) ∧
          st2.messages[i].subject
            = (if "subject" ∈ clobber then msg.subject else st.messages[i].subject) ∧
          st2.messages[i].body
            = (if "body" ∈ clobber then msg.body else st.messages[i].body) ∧
          st2.messages[i].size
            = (if "size" ∈ clobber then msg.size else st.messages[i].size) ∧
          st2.messages[i].timestamp
            = (if "timestamp" ∈ clobber then msg.timestamp else st.messages[i].timestamp) ∧
          st2.messages[i].is_read
            = (if "is_read" ∈ clobber then msg.is_read else st.messages[i].is_read) ∧
          st2.messages[i].is_outgoing
            = (if "is_outgoing" ∈ clobber then msg.is_outgoing else st.messages[i].is_outgoing)) := by
  have hirtnm : "in_reply_to" ∉ clobber := fun hmem =>
    absurd (hclob _ hmem) (by decide)
  cases hfind : st.messages.find? (fun r => r.message_id = msg.id) with
  | none =>
      exfalso
      obtain ⟨x, hx, hpx⟩ := List.any_eq_true.mp hex
      exact absurd hpx (by simpa using List.find?_eq_none.mp hfind x hx)
  | some old0 =>
      have happ := applyClobber_mutable clobber (mkMessageData msg now)
        (strTruthy msg.in_reply_to) old0 hclob
      have hcm := create_message_conflict msg clobber now st old0 _ hfind happ hirtnm
      refine ⟨_, hcm, by simp, ?_⟩
      intro i hi hi2
      have hmem0 : old0 ∈ st.messages := List.mem_of_find?_eq_some hfind
      have hid0 : old0.message_id = msg.id := by simpa using List.find?_some hfind
      have hgeti : st.messages[i] ∈ st.messages := List.getElem_mem hi
      constructor
      · intro hne
        simp [List.getElem_map, hne]
      · intro heq
        have heqrow : old0 = st.messages[i] :=
          eq_of_mem_of_unique_ids st.messages huniq old0 (st.messages[i])
            hmem0 hgeti (by rw [hid0, heq])
        simp only [List.getElem_map, if_pos heq]
        rw [← heqrow]
        exact ⟨rfl, rfl, rfl, rfl, rfl, rfl, rfl, rfl, rfl, rfl, rfl, rfl, rfl⟩

/-- Stored row used by the upsert witnesses: the message as first synced. -/
def c4Row : MsgRow :=
  ⟨"test-message-123", some "thread-abc", "s0", "r0", "l0",
   some "Test Subject", some "b0", 1024, 100, false, false, 0, none⟩

/-- Store holding just `c4Row`. -/
def c4St : Store := ⟨[c4Row], []⟩

/-- Re-synced version of the same message with changed `labels`,
`subject` and `is_read`. -/
def c4Msg : ParsedMessage :=
  ⟨"test-message-123", some "thread-abc", "s0", "r0", "l1",
   some "This Subject Should NOT Be Updated", some "b0", 1024, 100,
   true, false, none, []⟩

/-- Witness for C4: upserting `c4Msg` over `c4Row` with clobber
`["is_read", "labels"]` updates `is_read` and `labels` and `last_indexed`
but keeps the stored subject. -/
theorem create_message_clobber_frame_witness :
    ∃ st2 : Store, create_message c4Msg ["is_read", "labels"] 7 c4St = .ok st2 ∧
      ∃ h0 : 0 < st2.messages.length,
        st2.messages[0].subject = some "Test Subject" ∧
        st2.messages[0].labels = "l1" ∧
        st2.messages[0].is_read = true ∧
        st2.messages[0].last_indexed = 7 ∧
        st2.messages[0].in_reply_to_id = none := by
  obtain ⟨st2, h1, hlen, hfields⟩ :=
    create_message_clobber_frame c4St c4Msg ["is_read", "labels"] 7
      (by decide) (by simp [c4St]) (by decide)
  have h0 : 0 < st2.messages.length := by
    rw [hlen]
    decide
  obtain ⟨_, hirt, hlast, _, _, _, hlab, hsubj, _, _, _, hread, _⟩ :=
    (hfields 0 (by decide) h0).2 (by decide)
  refine ⟨st2, h1, h0, ?_, ?_, ?_, hlast, ?_⟩
  · simpa [c4St, c4Row] using hsubj
  · simpa [c4St, c4Row, c4Msg] using hlab
  · simpa [c4St, c4Row, c4Msg] using hread
  · simpa [c4St, c4Row] using hirt

/-- Parent row already present in the store for the C3 failing input. -/
def c3Parent : MsgRow :=
  ⟨"parent-id", none, "s", "r", "l", none, none, 0, 1, false, false, 0, none⟩

/-- A reply whose raw `In-Reply-To` header value equals the parent's id. -/
def c3Child : ParsedMessage :=
  ⟨"child", none, "s", "r", "l", none, none, 0, 2, false, false,
   some "parent-id", []⟩

/-- C3 is violated by the code: `create_message` puts the raw
`in_reply_to` value into `message_data`, and on the peewee model that key
is the foreign-key field stored in column `in_reply_to_id`, so a fresh
insert writes `in_reply_to_id` directly — here the freshly upserted row
ends up with `in_reply_to_id = some "parent-id"` instead of null. -/
theorem create_message_writes_in_reply_to_id :
    (create_message c3Child [] 5 ⟨[c3Parent], []⟩).toOption.map
        (fun st => st.messages.map (fun r => r.in_reply_to_id))
      = some [none, some "parent-id"] := by decide

theorem insertRefs_spec (mid : String) :
    ∀ (ids : List String) (refs : List (String × String)),
      ∃ extra, insertRefs mid ids refs = refs ++ extra ∧
        (∀ p ∈ extra, p.1 = mid ∧ p.2 ∈ ids ∧ p ∉ refs) ∧
        (∀ r ∈ ids, (mid, r) ∈ refs ++ extra) ∧
        extra.Nodup := by
  intro ids
  induction ids with
  | nil =>
      intro refs
      exact ⟨[], by simp [insertRefs], by simp, by simp, List.nodup_nil⟩
  | cons a rest ih =>
      intro refs
      by_cases hmem : (mid, a) ∈ refs
      · have hstep : insertRefs mid (a :: rest) refs = insertRefs mid rest refs := by
          unfold insertRefs
          rw [List.foldl_cons, if_pos hmem]
        obtain ⟨extra, h1, h2, h3, h4⟩ := ih refs
        refine ⟨extra, by rw [hstep, h1], ?_, ?_, h4⟩
        · intro p hp
          obtain ⟨hp1, hp2, hp3⟩ := h2 p hp
          exact ⟨hp1, List.mem_cons_of_mem a hp2, hp3⟩
        · intro r hr
          rcases List.mem_cons.mp hr with rfl | hr2
          · exact List.mem_append_left extra hmem
          · exact h3 r hr2
      · have hstep : insertRefs mid (a :: rest) refs
            = insertRefs mid rest (refs ++ [(mid, a)]) := by
          unfold insertRefs
          rw [List.foldl_cons, if_neg hmem]
        obtain ⟨extra, h1, h2, h3, h4⟩ := ih (refs ++ [(mid, a)])
        refine ⟨(mid, a) :: extra, ?_, ?_, ?_, ?_⟩
        · rw [hstep, h1]
          simp
        · intro p hp
          rcases List.mem_cons.mp hp with rfl | hp2
          · exact ⟨rfl, List.mem_cons_self a rest, hmem⟩
          · obtain ⟨hp1, hp2, hp3⟩ := h2 p hp2
            exact ⟨hp1, List.mem_cons_of_mem a hp2,
              fun hc => hp3 (List.mem_append_left _ hc)⟩
        · intro r hr
          rcases List.mem_cons.mp hr with rfl | hr2
          · exact List.mem_append_right refs (List.mem_cons_self _ _)
          · have := h3 r hr2
            simpa using this
        · refine List.nodup_cons.mpr ⟨?_, h4⟩
          intro hc
          exact (h2 _ hc).2.2 (List.mem_append_right refs (List.mem_cons_self _ _))

theorem create_message_ok_refs (msg : ParsedMessage) (clobber : List String)
    (now : Nat) (st st2 : Store)
    (h : create_message msg clobber now st = .ok st2) :
    st2.refs = if msg.references.isEmpty then st.refs
      else insertRefs msg.id msg.references st.refs := by
  unfold create_message at h
  split at h
  · exact Except.noConfusion h
  · rw [← Except.ok.inj h]

/-- C5 (amended): after the upsert succeeds, MessageReference rows are
inserted for exactly the ids in the message's `references` list,
deduplicated, with insert-if-absent semantics: the stored pairs are
preserved unchanged as a prefix, every inserted pair has this message's
id and an id from `references` and was not already stored, every id of
`references` is present afterwards, and no pair is inserted twice.  The
`in_reply_to` value yields a row only when it occurs in `references`. -/
theorem create_message_refs_spec (msg : ParsedMessage) (clobber : List String)
    (now : Nat) (st st2 : Store)
    (h : create_message msg clobber now st = .ok st2) :
    ∃ extra, st2.refs = st.refs ++ extra ∧
      (∀ p ∈ extra, p.1 = msg.id ∧ p.2 ∈ msg.references ∧ p ∉ st.refs) ∧
      (∀ r ∈ msg.references, (msg.id, r) ∈ st2.refs) ∧
      extra.Nodup := by
  have hrefs := create_message_ok_refs msg clobber now st st2 h
  by_cases hemp : msg.references.isEmpty
  · rw [if_pos hemp] at hrefs
    have : msg.references = [] := List.isEmpty_iff.mp hemp
    refine ⟨[], by simp [hrefs], by simp, ?_, List.nodup_nil⟩
    intro r hr
    rw [this] at hr
    cases hr
  · rw [if_neg hemp] at hrefs
    obtain ⟨extra, h1, h2, h3, h4⟩ := insertRefs_spec msg.id msg.references st.refs
    exact ⟨extra, by rw [hrefs, h1], h2, fun r hr => by rw [hrefs, h1]; exact h3 r hr, h4⟩

/-- Store for the reference-insertion scenario: the parent message row and
one pre-existing reference pair. -/
def c5St : Store := ⟨[c3Parent], [("m", "b")]⟩

/-- Message with a truthy `in_reply_to` that is NOT in its `references`
list, and a duplicated reference id. -/
def c5Msg : ParsedMessage :=
  ⟨"m", none, "s", "r", "l", none, none, 0, 2, false, false,
   some "parent-id", ["a", "a", "b"]⟩

/-- The store produced by upserting `c5Msg` into `c5St`. -/
def c5Result : Store :=
  ⟨[c3Parent, mkMessageData c5Msg 5], [("m", "b"), ("m", "a")]⟩

/-- Witness for C5 (amended): on the concrete store the upsert succeeds,
the pre-existing pair is untouched, `"a"` is inserted once despite the
duplicate, and `"b"` raises no error. -/
theorem create_message_refs_spec_witness :
    ∃ extra, c5Result.refs = c5St.refs ++ extra ∧
      (∀ p ∈ extra, p.1 = c5Msg.id ∧ p.2 ∈ c5Msg.references ∧ p ∉ c5St.refs) ∧
      (∀ r ∈ c5Msg.references, (c5Msg.id, r) ∈ c5Result.refs) ∧
      extra.Nodup :=
  create_message_refs_spec c5Msg [] 5 c5St c5Result rfl

/-- Counterexample to C5 as stated: the upsert of `c5Msg` (whose
`in_reply_to` is `"parent-id"`) succeeds, yet no MessageReference row for
the `in_reply_to` value is inserted — only the ids of `references` are. -/
theorem create_message_refs_no_in_reply_to :
    (create_message c5Msg [] 5 c5St).toOption.map (fun st => st.refs)
        = some [("m", "b"), ("m", "a")] ∧
      ("m", "parent-id") ∉ [("m", "b"), ("m", "a")] := by decide

/-- `db.last_indexed`: the first row of `SELECT ... ORDER BY timestamp
DESC`, i.e. the greatest stored timestamp, or `None` on an empty table. -/
def last_indexed (st : Store) : Option Nat :=
  (st.messages.map (fun r => r.timestamp)).max?

/-- `db.first_indexed`: the first row of `SELECT ... ORDER BY timestamp
ASC`, i.e. the least stored timestamp, or `None` on an empty table. -/
def first_indexed (st : Store) : Option Nat :=
  (st.messages.map (fun r => r.timestamp)).min?

/-- The query selection of `sync.all_messages`: `None` for a full sync;
otherwise, when `last_indexed` or `first_indexed` is truthy, the pair of
arguments `(after, before)` passed to `provider.build_query`, and `None`
(no bounds, full listing) when the store is empty. -/
def all_messages_query (full_sync : Bool) (st : Store) :
    Option (Option Nat × Option Nat) :=
  if full_sync then none
  else
    let last := last_indexed st
    let first := first_indexed st
    if last.isSome || first.isSome then some (last, first) else none

/-- C6: a non-full sync on a non-empty store requests exactly
`build_query(after = T1, before = T0)` where `T1` is the greatest and
`T0` the least stored message timestamp; on an empty store it passes no
query bounds (full listing). -/
theorem all_messages_query_incremental (st : Store) :
    (st.messages ≠ [] →
      ∃ t1 t0, all_messages_query false st = some (some t1, some t0) ∧
        (∀ r ∈ st.messages, r.timestamp ≤ t1) ∧
        (∃ r ∈ st.messages, r.timestamp = t1) ∧
        (∀ r ∈ st.messages, t0 ≤ r.timestamp) ∧
        (∃ r ∈ st.messages, r.timestamp = t0)) ∧
    (st.messages = [] → all_messages_query false st = none) := by
  constructor
  · intro hne
    cases hmax : (st.messages.map (fun r => r.timestamp)).max? with
    | none =>
        exact absurd (List.max?_eq_none_iff.mp hmax) (by simpa using hne)
    | some t1 =>
        cases hmin : (st.messages.map (fun r => r.timestamp)).min? with
        | none =>
            exact absurd (List.min?_eq_none_iff.mp hmin) (by simpa using hne)
        | some t0 =>
            have hmaxF : t1 ∈ st.messages.map (fun r => r.timestamp) ∧
                ∀ b ∈ st.messages.map (fun r => r.timestamp), b ≤ t1 := by
              rw [List.max?_eq_some_iff] at hmax
              · exact hmax
              · exact fun x => le_refl x
              · intro a b
                rcases Nat.le_total a b with h | h
                · exact Or.inr (Nat.max_eq_right h)
                · exact Or.inl (Nat.max_eq_left h)
              · exact fun a b c => Nat.max_le
            have hminF : t0 ∈ st.messages.map (fun r => r.timestamp) ∧
                ∀ b ∈ st.messages.map (fun r => r.timestamp), t0 ≤ b := by
              rw [List.min?_eq_some_iff] at hmin
              · exact hmin
              · exact fun x => le_refl x
              · intro a b
                rcases Nat.le_total a b with h | h
                · exact Or.inl (Nat.min_eq_left h)
                · exact Or.inr (Nat.min_eq_right h)
              · exact fun a b c => Nat.le_min
            refine ⟨t1, t0, ?_, ?_, ?_, ?_, ?_⟩
            · simp [all_messages_query, last_indexed, first_indexed, hmax, hmin]
            · intro r hr
              exact hmaxF.2 _ (List.mem_map_of_mem _ hr)
            · obtain ⟨r, hr, heq⟩ := List.mem_map.mp hmaxF.1
              exact ⟨r, hr, heq⟩
            · intro r hr
              exact hminF.2 _ (List.mem_map_of_mem _ hr)
            · obtain ⟨r, hr, heq⟩ := List.mem_map.mp hminF.1
              exact ⟨r, hr, heq⟩
  · intro hemp
    simp [all_messages_query, last_indexed, first_indexed, hemp]

/-- Concrete store rows for the incremental-query witness. -/
def c6RowA : MsgRow :=
  ⟨"a", none, "s", "r", "l", none, none, 0, 5, false, false, 0, none⟩

/-- Second concrete row with an earlier timestamp. -/
def c6RowB : MsgRow :=
  ⟨"b", none, "s", "r", "l", none, none, 0, 2, false, false, 0, none⟩

/-- Two-message store with timestamps 5 and 2. -/
def c6St : Store := ⟨[c6RowA, c6RowB], []⟩

/-- Witness for C6: on the two-message store a non-full sync passes max
and min timestamps, and on the empty store it passes no bounds. -/
theorem all_messages_query_incremental_witness :
    (∃ t1 t0, all_messages_query false c6St = some (some t1, some t0) ∧
      (∀ r ∈ c6St.messages, r.timestamp ≤ t1) ∧
      (∃ r ∈ c6St.messages, r.timestamp = t1) ∧
      (∀ r ∈ c6St.messages, t0 ≤ r.timestamp) ∧
      (∃ r ∈ c6St.messages, r.timestamp = t0)) ∧
    all_messages_query false (⟨[], []⟩ : Store) = none :=
  ⟨(all_messages_query_incremental c6St).1 (by decide),
   (all_messages_query_incremental ⟨[], []⟩).2 rfl⟩

/-- A row of the `attachments` table; binary content is an opaque
string. -/
structure AttRow where
  message_id : String
  filename : String
  content_type : String
  size : Nat
  content : String
  last_indexed : Nat
  deriving DecidableEq

/-- The attachment dict handed to `db.save_attachment`. -/
structure AttIn where
  message_id : String
  filename : String
  content_type : String
  size : Nat
  content : String
  deriving DecidableEq

/-- `db.attachment_exists` / the existence probe of the rename loop. -/
def attachment_exists (atts : List AttRow) (mid fname : String) : Bool :=
  atts.any (fun a => a.message_id = mid ∧ a.filename = fname)

/-- Index of the last `.` in a character list, if any. -/
def lastDotIdx (cs : List Char) : Option Nat :=
  (cs.reverse.findIdx? (fun c => c = '.')).map (fun j => cs.length - 1 - j)

/-- Python `os.path.splitext`: split off the extension at the last dot,
except when every character before that dot is itself a dot (leading-dot
filenames such as `.bashrc` keep their dot in the base). -/
def splitext (s : String) : String × String :=
  match lastDotIdx s.data with
  | none => (s, "")
  | some i =>
      if (s.data.take i).all (fun c => c = '.') then (s, "")
      else (String.mk (s.data.take i), String.mk (s.data.drop i))

/-- The `while attachment_exists` rename loop of `save_attachment`,
written with explicit fuel: the loop probes pairwise-distinct candidate
names `name`, `base(1)ext`, `base(2)ext`, …, so it terminates within
`atts.length + 1` probes; callers pass fuel `atts.length + 2`. -/
def findFreeName (atts : List AttRow) (mid base ext : String) :
    Nat → String → Nat → String
  | 0, name, _ => name
  | fuel + 1, name, counter =>
      if attachment_exists atts mid name then
        findFreeName atts mid base ext fuel
          (base ++ "(" ++ toString counter ++ ")" ++ ext) (counter + 1)
      else name

/-- `db.save_attachment`: find a free filename by the rename loop, then
insert the row.  The insert violates the `attachments.message_id`
foreign key (pragma `foreign_keys=1` is set by `db.init`) when no
message row with that id exists, raising `IntegrityError` and inserting
nothing. -/
def save_attachment (msgs : List String) (atts : List AttRow) (att : AttIn)
    (now : Nat) : Except DbErr (List AttRow) :=
  let be := splitext att.filename
  let fname := findFreeName atts att.message_id be.1 be.2
    (atts.length + 2) att.filename 1
  if att.message_id ∈ msgs then
    .ok (atts ++ [{ message_id := att.message_id, filename := fname,
                    content_type := att.content_type, size := att.size,
                    content := att.content, last_indexed := now }])
  else .error .integrityError

/-- Three `save_attachment` calls in sequence against the same message
table, propagating the attachment table. -/
def saveChain3 (msgs : List String) (atts : List AttRow) (a1 a2 a3 : AttIn)
    (n1 n2 n3 : Nat) : Except DbErr (List AttRow) := do
  let s1 ← save_attachment msgs atts a1 n1
  let s2 ← save_attachment msgs s1 a2 n2
  save_attachment msgs s2 a3 n3

/-- C8: saving an attachment whose `message_id` has no Message row fails
with `IntegrityError`, and no attachment row is inserted. -/
theorem save_attachment_integrity (msgs : List String) (atts : List AttRow)
    (att : AttIn) (now : Nat) (h : att.message_id ∉ msgs) :
    save_attachment msgs atts att now = .error .integrityError := by
  simp only [save_attachment]
  rw [if_neg h]

/-- Witness for C8: saving into an empty message table errors. -/
theorem save_attachment_integrity_witness :
    save_attachment [] [] ⟨"m", "f.txt", "t", 1, "c"⟩ 0
      = .error .integrityError :=
  save_attachment_integrity [] [] ⟨"m", "f.txt", "t", 1, "c"⟩ 0 (by decide)

theorem findFreeName_succ (atts : List AttRow) (mid base ext : String)
    (fuel : Nat) (name : String) (counter : Nat) :
    findFreeName atts mid base ext (fuel + 1) name counter
      = if attachment_exists atts mid name then
          findFreeName atts mid base ext fuel
            (base ++ "(" ++ toString counter ++ ")" ++ ext) (counter + 1)
        else name := rfl

theorem findFreeName_stops (atts : List AttRow) (mid base ext : String)
    (fuel : Nat) (name : String) (counter : Nat)
    (h : attachment_exists atts mid name = false) :
    findFreeName atts mid base ext (fuel + 1) name counter = name := by
  rw [findFreeName_succ, h]
  simp

theorem findFreeName_step (atts : List AttRow) (mid base ext : String)
    (fuel : Nat) (name : String) (counter : Nat)
    (h : attachment_exists atts mid name = true) :
    findFreeName atts mid base ext (fuel + 1) name counter
      = findFreeName atts mid base ext fuel
          (base ++ "(" ++ toString counter ++ ")" ++ ext) (counter + 1) := by
  rw [findFreeName_succ, h]
  simp

theorem attachment_exists_append (atts : List AttRow) (r : AttRow)
    (mid fname : String) :
    attachment_exists (atts ++ [r]) mid fname
      = (attachment_exists atts mid fname
          || (r.message_id = mid ∧ r.filename = fname)) := by
  simp [attachment_exists, List.any_append]

theorem save_attachment_free (msgs : List String) (atts : List AttRow)
    (att : AttIn) (now : Nat)
    (hfree : attachment_exists atts att.message_id att.filename = false)
    (hmem : att.message_id ∈ msgs) :
    save_attachment msgs atts att now
      = .ok (atts ++ [{ message_id := att.message_id,
                        filename := att.filename,
                        content_type := att.content_type, size := att.size,
                        content := att.content, last_indexed := now }]) := by
  simp only [save_attachment]
  rw [if_pos hmem,
    show atts.length + 2 = (atts.length + 1) + 1 from rfl,
    findFreeName_stops atts att.message_id _ _ _ att.filename 1 hfree]

theorem bindOk {ε α β : Type} (a : α) (k : α → Except ε β) :
    Except.ok a >>= k = k a := rfl

/-- C7 (amended): three saves of attachments with the same
`(message_id, "f.txt")`, against a store where `f.txt`, `f(1).txt` and
`f(2).txt` are all initially absent for that message, append exactly the
rows `f.txt`, `f(1).txt`, `f(2).txt`, each keeping the content of its own
call, with every earlier row untouched. -/
theorem save_attachment_three_saves (msgs : List String) (atts : List AttRow)
    (mid ct1 ct2 ct3 c1 c2 c3 : String) (sz1 sz2 sz3 n1 n2 n3 : Nat)
    (hmem : mid ∈ msgs)
    (h1 : attachment_exists atts mid "f.txt" = false)
    (h2 : attachment_exists atts mid "f(1).txt" = false)
    (h3 : attachment_exists atts mid "f(2).txt" = false) :
    saveChain3 msgs atts ⟨mid, "f.txt", ct1, sz1, c1⟩
        ⟨mid, "f.txt", ct2, sz2, c2⟩ ⟨mid, "f.txt", ct3, sz3, c3⟩ n1 n2 n3
      = .ok (atts ++ [⟨mid, "f.txt", ct1, sz1, c1, n1⟩,
          ⟨mid, "f(1).txt", ct2, sz2, c2, n2⟩,
          ⟨mid, "f(2).txt", ct3, sz3, c3, n3⟩]) := by
  have hs1 : save_attachment msgs atts ⟨mid, "f.txt", ct1, sz1, c1⟩ n1
      = .ok (atts ++ [⟨mid, "f.txt", ct1, sz1, c1, n1⟩]) :=
    save_attachment_free msgs atts ⟨mid, "f.txt", ct1, sz1, c1⟩ n1 h1 hmem
  have he1 : attachment_exists (atts ++ [⟨mid, "f.txt", ct1, sz1, c1, n1⟩])
      mid "f.txt" = true := by
    rw [attachment_exists_append]
    simp
  have he2 : attachment_exists (atts ++ [⟨mid, "f.txt", ct1, sz1, c1, n1⟩])
      mid "f(1).txt" = false := by
    rw [attachment_exists_append, h2]
    simp
  have hs2 : save_attachment msgs (atts ++ [⟨mid, "f.txt", ct1, sz1, c1, n1⟩])
      ⟨mid, "f.txt", ct2, sz2, c2⟩ n2
      = .ok ((atts ++ [⟨mid, "f.txt", ct1, sz1, c1, n1⟩])
          ++ [⟨mid, "f(1).txt", ct2, sz2, c2, n2⟩]) := by
    simp only [save_attachment]
    rw [if_pos hmem,
      show (splitext "f.txt").1 = "f" from rfl,
      show (splitext "f.txt").2 = ".txt" from rfl,
      show (atts ++ [(⟨mid, "f.txt", ct1, sz1, c1, n1⟩ : AttRow)]).length + 2
        = ((atts ++ [(⟨mid, "f.txt", ct1, sz1, c1, n1⟩ : AttRow)]).length + 1) + 1
        from rfl,
      findFreeName_step _ _ _ _ _ _ _ he1,
      show ("f" ++ "(" ++ toString (1 : Nat) ++ ")" ++ ".txt") = "f(1).txt" from rfl,
      findFreeName_stops _ _ _ _ _ _ _ he2]
  have he3a : attachment_exists ((atts ++ [⟨mid, "f.txt", ct1, sz1, c1, n1⟩])
      ++ [⟨mid, "f(1).txt", ct2, sz2, c2, n2⟩]) mid "f.txt" = true := by
    rw [attachment_exists_append, he1]
    simp
  have he3b : attachment_exists ((atts ++ [⟨mid, "f.txt", ct1, sz1, c1, n1⟩])
      ++ [⟨mid, "f(1).txt", ct2, sz2, c2, n2⟩]) mid "f(1).txt" = true := by
    rw [attachment_exists_append]
    simp
  have he3c : attachment_exists ((atts ++ [⟨mid, "f.txt", ct1, sz1, c1, n1⟩])
      ++ [⟨mid, "f(1).txt", ct2, sz2, c2, n2⟩]) mid "f(2).txt" = false := by
    rw [attachment_exists_append, attachment_exists_append, h3]
    simp
  have hs3 : save_attachment msgs ((atts ++ [⟨mid, "f.txt", ct1, sz1, c1, n1⟩])
      ++ [⟨mid, "f(1).txt", ct2, sz2, c2, n2⟩]) ⟨mid, "f.txt", ct3, sz3, c3⟩ n3
      = .ok (((atts ++ [⟨mid, "f.txt", ct1, sz1, c1, n1⟩])
          ++ [⟨mid, "f(1).txt", ct2, sz2, c2, n2⟩])
          ++ [⟨mid, "f(2).txt", ct3, sz3, c3, n3⟩]) := by
    simp only [save_attachment]
    rw [if_pos hmem,
      show (splitext "f.txt").1 = "f" from rfl,
      show (splitext "f.txt").2 = ".txt" from rfl,
      show ((atts ++ [(⟨mid, "f.txt", ct1, sz1, c1, n1⟩ : AttRow)])
          ++ [(⟨mid, "f(1).txt", ct2, sz2, c2, n2⟩ : AttRow)]).length
        = atts.length + 2 by simp,
      show atts.length + 2 + 2 = (atts.length + 2 + 1) + 1 from rfl,
      findFreeName_step _ _ _ _ _ _ _ he3a,
      show ("f" ++ "(" ++ toString (1 : Nat) ++ ")" ++ ".txt") = "f(1).txt" from rfl,
      findFreeName_step _ _ _ _ _ _ _ he3b,
      show ("f" ++ "(" ++ toString (1 + 1 : Nat) ++ ")" ++ ".txt") = "f(2).txt" from rfl,
      show atts.length + 2 = (atts.length + 1) + 1 from rfl,
      findFreeName_stops _ _ _ _ _ _ _ he3c]
  unfold saveChain3
  rw [hs1, bindOk, hs2, bindOk, hs3]
  simp

/-- Witness for C7 (amended): three saves of `f.txt` into an empty
attachment table yield `f.txt`, `f(1).txt`, `f(2).txt` with their own
contents. -/
theorem save_attachment_three_saves_witness :
    saveChain3 ["m"] [] ⟨"m", "f.txt", "t", 1, "a"⟩ ⟨"m", "f.txt", "t", 1, "b"⟩
        ⟨"m", "f.txt", "t", 1, "c"⟩ 1 2 3
      = .ok [⟨"m", "f.txt", "t", 1, "a", 1⟩, ⟨"m", "f(1).txt", "t", 1, "b", 2⟩,
          ⟨"m", "f(2).txt", "t", 1, "c", 3⟩] := by
  have h := save_attachment_three_saves ["m"] [] "m" "t" "t" "t" "a" "b" "c"
    1 1 1 1 2 3 (by decide) (by decide) (by decide) (by decide)
  simpa using h

/-- The three saves of the C7 counterexample run against a store that
already holds a row named `f(1).txt` (while `(message_id, "f.txt")` is
absent, as the claim requires). -/
def c7Chain : Except DbErr (List AttRow) :=
  saveChain3 ["m"] [⟨"m", "f(1).txt", "t", 0, "old", 0⟩]
    ⟨"m", "f.txt", "t", 1, "c1"⟩ ⟨"m", "f.txt", "t", 1, "c2"⟩
    ⟨"m", "f.txt", "t", 1, "c3"⟩ 1 2 3

/-- Counterexample to C7 as stated: with `(message_id, "f.txt")` initially
absent but `f(1).txt` already taken, the three saves create rows named
`f.txt`, `f(2).txt`, `f(3).txt` — not `f.txt`, `f(1).txt`, `f(2).txt` as
the claim predicts for every store where only that pair is absent. -/
theorem save_attachment_three_saves_claim_false :
    c7Chain.toOption.map (fun l => l.map (fun r : AttRow => r.filename))
        = some ["f(1).txt", "f.txt", "f(2).txt", "f(3).txt"] ∧
      ["f.txt", "f(2).txt", "f(3).txt"] ≠ ["f.txt", "f(1).txt", "f(2).txt"] := by
  decide

/-- The id extracted from a fetched message's headers:
`email_message.get('Message-ID', '').strip('<>')`, the header value being
absent (`none`) or present.  Used by both `_parse_imap_message` and
`_list_messages_in_folder` in `providers/imap.py`. -/
def imapMessageId (header : Option String) : String :=
  stripAngles (header.getD "")

/-- The id assignment of `_parse_imap_message` (imap.py lines 52-55): the
stripped `Message-ID`, or — when that is empty — a synthetic id
(`uuid.uuid4()`, modelled by the parameter `fresh`). -/
def parseImapId (header : Option String) (fresh : String) : String :=
  let i := imapMessageId header
  if i = "" then fresh else i

/-- The id collection of `_list_messages_in_folder` (imap.py lines
181-191): the stripped `Message-ID` of each fetched header block is
appended to the result only `if msg_id`; a message whose header lacks a
`Message-ID` merely prints a warning and contributes no entry. -/
def listedIds (headers : List (Option String)) : List String :=
  headers.filterMap (fun h =>
    let i := imapMessageId h
    if i = "" then none else some i)

/-- Counterexample to C9 as stated: a folder listing containing exactly
one message without a `Message-ID` header yields an empty id list, so
that message is never fetched, normalized or persisted by the sync loop —
it is dropped, not given a surrogate id. -/
theorem imap_listing_drops_missing_message_id :
    listedIds [none] = [] ∧ (listedIds [none]).length ≠ 1 := by decide

/-- C9 (amended): when a fetched message's `Message-ID` is missing or
empty, `_parse_imap_message` assigns the synthesized surrogate id, but
`_list_messages_in_folder` omits the message from the returned listing
(printing a warning), so such messages are dropped from the sync rather
than persisted; messages with a usable `Message-ID` are listed under the
stripped id, which the parser also uses. -/
theorem imap_missing_message_id_spec (hs : List (Option String))
    (h : Option String) (fresh : String) :
    (imapMessageId h = "" →
      parseImapId h fresh = fresh ∧ listedIds (h :: hs) = listedIds hs) ∧
    (imapMessageId h ≠ "" →
      parseImapId h fresh = imapMessageId h ∧
      listedIds (h :: hs) = imapMessageId h :: listedIds hs) := by
  constructor
  · intro heq
    constructor
    · simp [parseImapId, heq]
    · simp [listedIds, heq]
  · intro hne
    constructor
    · simp [parseImapId, hne]
    · simp [listedIds, hne]

/-- Witness for C9 (amended): a missing header gets the surrogate and is
dropped from the listing; a bracketed header is stripped and listed. -/
theorem imap_missing_message_id_spec_witness :
    (parseImapId none "uuid-1" = "uuid-1" ∧ listedIds [none] = listedIds []) ∧
    (parseImapId (some "<id-1>") "uuid-1" = "id-1" ∧
      listedIds [some "<id-1>"] = "id-1" :: listedIds []) := by
  constructor
  · exact (imap_missing_message_id_spec [] none "uuid-1").1 (by decide)
  · have h := (imap_missing_message_id_spec [] (some "<id-1>") "uuid-1").2 (by decide)
    simpa using h

/-- `ParsedMessage.parse_addresses` (message.py lines 24-36): its input
string is first parsed by the stdlib collaborator
`email.utils.getaddresses` into (realname, email) pairs — modelled here
by the already-parsed pair list — and the comprehension keeps the pairs
with a non-empty email, lowercasing the email component. -/
def parse_addresses (parsed : List (String × String)) : List (String × String) :=
  (parsed.filter (fun p => p.2 ≠ "")).map (fun p => (p.1, p.2.toLower))

/-- C10: an entry is returned by `parse_addresses` exactly when some
parsed pair has a non-empty email equal (after lowercasing) to the
entry's email and the same display name; pairs whose email component is
empty yield no entry. -/
theorem parse_addresses_spec (parsed : List (String × String))
    (x : String × String) :
    x ∈ parse_addresses parsed
      ↔ ∃ p ∈ parsed, p.2 ≠ "" ∧ x = (p.1, p.2.toLower) := by
  unfold parse_addresses
  constructor
  · intro hx
    obtain ⟨p, hp, hfx⟩ := List.mem_map.mp hx
    obtain ⟨hpmem, hpne⟩ := List.mem_filter.mp hp
    exact ⟨p, hpmem, by simpa using hpne, hfx.symm⟩
  · rintro ⟨p, hpmem, hpne, rfl⟩
    exact List.mem_map.mpr ⟨p, List.mem_filter.mpr ⟨hpmem, by simpa using hpne⟩, rfl⟩

end MailToSqlite
